import Mathlib

/-!
Shallow embedding of the data-loading pipeline of src/main.py:
the school metadata table SCHOOL_META, the filename normalizer
normalize_str, and the directory loader load_data together with its
helpers.

Modelling conventions:
  - A directory is an optional list of entries (none models a missing
    data directory; the list order is the iterdir enumeration order).
  - Every entry carries, besides its raw name, the outcome that
    pd.read_csv would produce under each of the two encodings tried by
    the code (utf-8 first, cp949 on a UnicodeDecodeError) and the outcome
    that pd.ExcelFile / pd.read_excel would produce.  Which reader runs
    is decided, as in the code, purely by the normalized file name.
  - Unicode NFC normalization and timestamp parsing are environment
    services (unicodedata.normalize and pd.to_datetime); the development
    is parameterized by them (nfc : String → String and
    pt : String → Option Nat, where none models the NaT marker produced
    by errors=coerce).
  - print output is collected as a list of log strings returned next to
    the loader result; the three terminal error messages are the literal
    strings returned by load_data.
  - A dataframe is a header (list of column names) plus rows of cells
    (lists of strings); the school and target_ec columns the code adds
    become explicit fields of the produced rows.  Growth sheets keep
    their rows positionally; their header handling (strip, case
    preserved) touches only column labels, which no downstream claim
    reads.
-/

namespace Polar

/-- ASCII whitespace, modelling the characters Python str.strip removes
on the headers that occur here. -/
def isWs (ch : Char) : Bool := ch = ' ' || ch = '\t' || ch = '\n' || ch = '\r'

/-- Drop leading whitespace characters. -/
def dropWs : List Char → List Char
  | [] => []
  | ch :: t => if isWs ch then dropWs t else ch :: t

/-- Python str.strip: drop whitespace at both ends. -/
def trimCh (l : List Char) : List Char :=
  (dropWs (dropWs l).reverse).reverse

/-- Does the first list occur as a leading segment of the second? -/
def chStarts : List Char → List Char → Bool
  | [], _ => true
  | _ :: _, [] => false
  | a :: as, b :: bs => a == b && chStarts as bs

/-- Does the first list occur as a contiguous segment of the second? -/
def chContains (n : List Char) : List Char → Bool
  | [] => n.isEmpty
  | b :: t => chStarts n (b :: t) || chContains n t

/-- Python substring test: needle in hay. -/
def strIn (needle hay : String) : Bool := chContains needle.data hay.data

/-- Python str.endswith. -/
def strEndsW (suf s : String) : Bool := chStarts suf.data.reverse s.data.reverse

/-- Column normalization applied to environment headers:
c.strip().lower(). -/
def normCol (s : String) : String := String.mk ((trimCh s.data).map Char.toLower)

/-- Per-school metadata, one row of SCHOOL_META. -/
structure SchoolMeta where
  ec_target : Rat
  color : String
  file_keyword : String
deriving DecidableEq, Repr

/-- The fixed school reference table of src/main.py, in its insertion
order (Python dicts preserve it). -/
def SCHOOL_META : List (String × SchoolMeta) :=
  [("송도고", ⟨1, "#1f77b4", "송도"⟩),
   ("하늘고", ⟨2, "#2ca02c", "하늘"⟩),
   ("아라고", ⟨4, "#ff7f0e", "아라"⟩),
   ("동산고", ⟨8, "#d62728", "동산"⟩)]

/-- normalize_str of src/main.py: NFC-normalize, mapping the empty
(falsy) string to the empty string.  The NFC transform itself is the
environment service nfc. -/
def normalize_str (nfc : String → String) (s : String) : String :=
  if s = "" then "" else nfc s

/-- A parsed dataframe: header and rows of raw cells. -/
structure RawTable where
  header : List String
  rows : List (List String)
deriving DecidableEq, Repr

/-- Outcome of one pd.read_csv attempt under one encoding: a parsed
table, a UnicodeDecodeError, or any other exception with its message. -/
inductive ReadOutcome where
  | ok (t : RawTable)
  | decodeErr
  | otherErr (msg : String)
deriving DecidableEq, Repr

/-- What pd.read_csv would yield on this file under each encoding the
code tries. -/
structure CsvData where
  utf8 : ReadOutcome
  cp949 : ReadOutcome
deriving DecidableEq, Repr

/-- Outcome of pd.read_excel on one sheet: a table or an exception. -/
inductive XlsxRead where
  | ok (t : RawTable)
  | err (msg : String)
deriving DecidableEq, Repr

/-- One sheet of a spreadsheet file: its raw name and read outcome. -/
structure SheetData where
  sname : String
  content : XlsxRead
deriving DecidableEq, Repr

/-- What pd.ExcelFile would yield on this file: an exception at open
time, or the list of sheets. -/
structure XlsxData where
  openErr : Option String
  sheets : List SheetData
deriving DecidableEq, Repr

/-- One directory entry: its raw name and the reader outcomes. -/
structure Entry where
  ename : String
  csvData : CsvData
  xlsxData : XlsxData
deriving DecidableEq, Repr

/-- One row of the unified environment table: the parsed time value
(none is the NaT invalid-timestamp marker of errors=coerce), the school
tag, the denormalized target EC, and the raw cells of the source row. -/
structure EnvRow where
  time : Option Nat
  school : String
  target_ec : Rat
  cells : List String
deriving DecidableEq, Repr

/-- One row of the unified growth table. -/
structure GrowthRow where
  school : String
  target_ec : Rat
  cells : List String
deriving DecidableEq, Repr

/-- The mutable state of the load loop: the accumulated per-file
environment tables, per-sheet growth tables, and the two counters the
code maintains. -/
structure Core where
  env_dfs : List (List EnvRow)
  growth_dfs : List (List GrowthRow)
  found_env_files : Nat
  found_growth_file : Bool
deriving DecidableEq, Repr

/-- Loop state at entry to load_data. -/
def initCore : Core := ⟨[], [], 0, false⟩

/-- The encoding cascade of lines 82-85: try utf-8; only on a
UnicodeDecodeError retry with cp949; any other utf-8 exception, and any
cp949 outcome, escape to the surrounding handler. -/
def read_csv (d : CsvData) : ReadOutcome :=
  match d.utf8 with
  | .ok t => .ok t
  | .decodeErr => d.cp949
  | .otherErr m => .otherErr m

/-- Message text of a failed read, used in the printed error line. -/
def roMsg : ReadOutcome → String
  | .ok _ => ""
  | .decodeErr => "UnicodeDecodeError"
  | .otherErr m => m

/-- The required-column set of line 94. -/
def required_cols : List String := ["time", "temperature", "humidity", "ph", "ec"]

/-- The column labels of the dataframe at the check of line 95: the csv
header, normalized, after the school and target_ec columns were
appended (they are appended on lines 87-88, before the lowercasing of
line 91, and are already lower case). -/
def envCols (t : RawTable) : List String :=
  t.header.map normCol ++ ["school", "target_ec"]

/-- Line 95: required_cols.issubset(df.columns). -/
def hasRequired (t : RawTable) : Bool :=
  required_cols.all (fun c => (envCols t).contains c)

/-- Position of the first occurrence of a label in a header. -/
def colPos (c : String) : List String → Nat
  | [] => 0
  | h :: t => if h = c then 0 else colPos c t + 1

/-- Index of the time column in the normalized csv header. -/
def timeIdx (t : RawTable) : Nat := colPos "time" (t.header.map normCol)

/-- The environment table contributed by one accepted (file, school)
pair: every source row is kept, its time cell parsed (none marks an
unparseable timestamp), tagged with the school and its target EC. -/
def envTableFor (pt : String → Option Nat) (school : String) (ec : Rat)
    (t : RawTable) : List EnvRow :=
  t.rows.map (fun r => ⟨pt (r.getD (timeIdx t) ""), school, ec, r⟩)

/-- The growth table contributed by one matched sheet. -/
def growthTableFor (school : String) (ec : Rat) (t : RawTable) : List GrowthRow :=
  t.rows.map (fun r => ⟨school, ec, r⟩)

/-- The body of the try of lines 80-100 for one school that matched the
file name: read the csv (both encodings), and on success append the
produced table when the required columns are present (a silent skip
otherwise); a failed read is caught and printed. -/
def envStepSchool (pt : String → Option Nat) (fname : String) (d : CsvData)
    (school : String) (ec : Rat) (c : Core) : Core × List String :=
  match read_csv d with
  | .ok t =>
      if hasRequired t then
        ({ c with env_dfs := c.env_dfs ++ [envTableFor pt school ec t],
                  found_env_files := c.found_env_files + 1 }, [])
      else (c, [])
  | ro => (c, ["Error reading " ++ fname ++ ": " ++ roMsg ro])

/-- The school loop of lines 78-100: every school whose keyword occurs
in the normalized file name is processed (the loop has no break). -/
def envLoop (pt : String → Option Nat) (fname : String) (d : CsvData) :
    List (String × SchoolMeta) → Core → Core × List String
  | [], c => (c, [])
  | sm :: rest, c =>
      if strIn sm.2.file_keyword fname then
        let p := envStepSchool pt fname d sm.1 sm.2.ec_target c
        let q := envLoop pt fname d rest p.1
        (q.1, p.2 ++ q.2)
      else envLoop pt fname d rest c

/-- The sheet-to-school matching of lines 112-116: first keyword match
wins (the loop breaks). -/
def sheetSchoolFor (nsheet : String) : Option (String × SchoolMeta) :=
  SCHOOL_META.find? (fun sm => strIn sm.2.file_keyword nsheet)

/-- All schools whose keyword occurs in a normalized file name; the
environment loop of lines 78-79 processes each of them. -/
def envSchoolsFor (fname : String) : List (String × SchoolMeta) :=
  SCHOOL_META.filter (fun sm => strIn sm.2.file_keyword fname)

/-- The sheet loop of lines 108-127: match each normalized sheet name
(first match wins), read matched sheets, tag their rows; a read
exception escapes the whole spreadsheet block. -/
def growthSheets (nfc : String → String) :
    List SheetData → Core → Except String Core
  | [], c => .ok c
  | sh :: rest, c =>
      match sheetSchoolFor (normalize_str nfc sh.sname) with
      | none => growthSheets nfc rest c
      | some sm =>
          match sh.content with
          | .err m => .error m
          | .ok t =>
              growthSheets nfc rest
                { c with growth_dfs :=
                    c.growth_dfs ++ [growthTableFor sm.1 sm.2.ec_target t] }

/-- The spreadsheet block of lines 104-127: an exception at open time or
while reading a matched sheet escapes to the handler of line 129. -/
def growthStep (nfc : String → String) (x : XlsxData) (c : Core) :
    Except String Core :=
  match x.openErr with
  | some m => .error m
  | none => growthSheets nfc x.sheets c

/-- The wrapper of line 130 around an escaped spreadsheet exception. -/
def excelErrMsg (e : String) : String := "❌ 엑셀 파일 로딩 중 오류: " ++ e

/-- Classification test of line 77. -/
def isEnvFile (nfc : String → String) (e : Entry) : Bool :=
  let fname := normalize_str nfc e.ename
  strEndsW ".csv" fname && strIn "환경" fname

/-- Classification test of line 103 (reached only when line 77 failed,
as in the elif). -/
def isGrowthFile (nfc : String → String) (e : Entry) : Bool :=
  let fname := normalize_str nfc e.ename
  strEndsW ".xlsx" fname && strIn "생육" fname

/-- Processing of one directory entry (the body of the for of line 72):
an environment csv runs the school loop and never raises; a growth
spreadsheet sets found_growth_file and may abort the whole load with the
wrapped excel error; anything else is ignored. -/
def step (nfc : String → String) (pt : String → Option Nat) (e : Entry)
    (c : Core) : Except String (Core × List String) :=
  if isEnvFile nfc e then
    .ok (envLoop pt (normalize_str nfc e.ename) e.csvData SCHOOL_META c)
  else if isGrowthFile nfc e then
    match growthStep nfc e.xlsxData { c with found_growth_file := true } with
    | .error m => .error (excelErrMsg m)
    | .ok c₂ => .ok (c₂, [])
  else .ok (c, [])

/-- The directory loop of lines 72-130; the emitted log lines are
collected in order (on an abort the log is discarded, as nothing returns
it). -/
def processEntries (nfc : String → String) (pt : String → Option Nat) :
    List Entry → Core → Except String (Core × List String)
  | [], c => .ok (c, [])
  | e :: rest, c =>
      match step nfc pt e c with
      | .error m => .error m
      | .ok p =>
          match processEntries nfc pt rest p.1 with
          | .error m => .error m
          | .ok q => .ok (q.1, p.2 ++ q.2)

/-- The result of load_data: the two optional unified tables, the
optional terminal error string, and the console log. -/
structure LoadOutput where
  env : Option (List EnvRow)
  growth : Option (List GrowthRow)
  err : Option String
  log : List String
deriving DecidableEq, Repr

/-- Terminal message of line 63. -/
def dirErrMsg : String := "❌ 'data' 폴더를 찾을 수 없습니다."

/-- Terminal message of line 134. -/
def noEnvMsg : String := "❌ 환경 데이터(CSV)를 찾을 수 없습니다."

/-- Terminal message of line 136. -/
def noGrowthMsg : String := "❌ 생육 데이터(XLSX)를 찾을 수 없습니다."

/-- load_data of src/main.py, lines 55-141: check the directory, run the
entry loop, then fail on an empty environment or growth collection, else
concatenate each collection into its unified table. -/
def load_data (nfc : String → String) (pt : String → Option Nat)
    (dir : Option (List Entry)) : LoadOutput :=
  match dir with
  | none => ⟨none, none, some dirErrMsg, []⟩
  | some entries =>
      match processEntries nfc pt entries initCore with
      | .error m => ⟨none, none, some m, []⟩
      | .ok p =>
          if p.1.env_dfs.isEmpty then ⟨none, none, some noEnvMsg, p.2⟩
          else if p.1.growth_dfs.isEmpty then ⟨none, none, some noGrowthMsg, p.2⟩
          else ⟨some p.1.env_dfs.flatten, some p.1.growth_dfs.flatten, none, p.2⟩

/-- Did this read produce a table? -/
def roIsOk : ReadOutcome → Bool
  | .ok _ => true
  | _ => false

/-- An entry whose processing appends at least one environment table: an
environment csv whose read succeeds with the required columns present
and whose normalized name matches at least one school keyword. -/
def contributesEnv (nfc : String → String) (e : Entry) : Bool :=
  isEnvFile nfc e &&
    (match read_csv e.csvData with
     | .ok t => hasRequired t
     | _ => false) &&
    !(envSchoolsFor (normalize_str nfc e.ename)).isEmpty

/-- The four (school name, target EC) pairs of the reference table. -/
def metaPairs : List (String × Rat) :=
  SCHOOL_META.map (fun sm => (sm.1, sm.2.ec_target))

/-- A school tag and target EC drawn from the reference table. -/
def pairOk (s : String) (q : Rat) : Prop := (s, q) ∈ metaPairs

/-- Every accumulated row is tagged with a reference (school, target EC)
pair. -/
def CoreTagged (c : Core) : Prop :=
  (∀ tb ∈ c.env_dfs, ∀ r ∈ tb, pairOk (EnvRow.school r) (EnvRow.target_ec r)) ∧
  (∀ tb ∈ c.growth_dfs, ∀ r ∈ tb, pairOk (GrowthRow.school r) (GrowthRow.target_ec r))

/-- Sequencing of entry-loop runs: run the second from the core the
first produced, concatenating logs; errors short-circuit. -/
def seqPE (r : Except String (Core × List String))
    (k : Core → Except String (Core × List String)) :
    Except String (Core × List String) :=
  match r with
  | .error m => .error m
  | .ok p =>
      match k p.1 with
      | .error m => .error m
      | .ok q => .ok (q.1, p.2 ++ q.2)

/-- Two loop results that agree up to the console log: same terminal
error, or same final core. -/
def coreEq : Except String (Core × List String) →
    Except String (Core × List String) → Prop
  | .error m₁, .error m₂ => m₁ = m₂
  | .ok p₁, .ok p₂ => p₁.1 = p₂.1
  | _, _ => False

/-! Concrete fixtures used by the witness and counterexample theorems. -/

/-- Timestamp parser fixture: the cell bad is unparseable, everything
else parses. -/
def pt0 : String → Option Nat := fun s => if s = "bad" then none else some 7

/-- A well-formed one-row environment csv table. -/
def hjTable : RawTable :=
  ⟨["time", "temperature", "humidity", "ph", "ec"], [["t1", "20", "50", "6", "2"]]⟩

/-- Spreadsheet reader outcome for files never read as spreadsheets. -/
def noX : XlsxData := ⟨none, []⟩

/-- Csv reader outcome for files never read as csv, or undecodable under
both encodings. -/
def noC : CsvData := ⟨.decodeErr, .decodeErr⟩

/-- A valid environment file of school 하늘고. -/
def hjEnv : Entry := ⟨"하늘환경.csv", ⟨.ok hjTable, .decodeErr⟩, noX⟩

/-- A five-row growth sheet table. -/
def gt5 : RawTable := ⟨["개체번호"], [["1"], ["2"], ["3"], ["4"], ["5"]]⟩

/-- A growth spreadsheet with one sheet matching 하늘고. -/
def growthX : Entry := ⟨"생육.xlsx", noC, ⟨none, [⟨"하늘고", .ok gt5⟩]⟩⟩

/-- A growth spreadsheet whose open raises an exception. -/
def badX : Entry := ⟨"생육2.xlsx", noC, ⟨some "boom", []⟩⟩

/-- An environment file whose name carries the keywords of two schools. -/
def multiEnv : Entry := ⟨"송도하늘환경.csv", ⟨.ok hjTable, .decodeErr⟩, noX⟩

/-- A csv table missing required columns. -/
def badTable : RawTable := ⟨["time", "temperature"], [["x", "1"]]⟩

/-- An environment file whose table lacks required columns. -/
def badColsEnv : Entry := ⟨"송도환경.csv", ⟨.ok badTable, .decodeErr⟩, noX⟩

/-- An environment file undecodable under both encodings. -/
def failEnv : Entry := ⟨"아라환경.csv", noC, noX⟩

/-- An environment file whose name matches no school keyword. -/
def noMatchEnv : Entry := ⟨"환경.csv", ⟨.ok hjTable, .decodeErr⟩, noX⟩

/-- An environment table with ten parseable rows and one row whose time
cell is unparseable. -/
def t11 : RawTable :=
  ⟨["time", "temperature", "humidity", "ph", "ec"],
   [["t1", "20", "50", "6", "2"], ["t2", "20", "50", "6", "2"],
    ["t3", "20", "50", "6", "2"], ["t4", "20", "50", "6", "2"],
    ["t5", "20", "50", "6", "2"], ["t6", "20", "50", "6", "2"],
    ["t7", "20", "50", "6", "2"], ["t8", "20", "50", "6", "2"],
    ["t9", "20", "50", "6", "2"], ["ta", "20", "50", "6", "2"],
    ["bad", "20", "50", "6", "2"]]⟩

/-- An eleven-row environment file of school 아라고. -/
def e11 : Entry := ⟨"아라환경11.csv", ⟨.ok t11, .decodeErr⟩, noX⟩

/-- The environment table load_data produces on [hjEnv, growthX]. -/
def E0 : List EnvRow := [⟨some 7, "하늘고", 2, ["t1", "20", "50", "6", "2"]⟩]

/-- The growth table load_data produces on [hjEnv, growthX]. -/
def G0 : List GrowthRow :=
  [⟨"하늘고", 2, ["1"]⟩, ⟨"하늘고", 2, ["2"]⟩, ⟨"하늘고", 2, ["3"]⟩,
   ⟨"하늘고", 2, ["4"]⟩, ⟨"하늘고", 2, ["5"]⟩]

/-! Helper lemmas about the loader. -/

/-- find? is the head of filter. -/
theorem find_eq_head_filter {α : Type} (p : α → Bool) :
    ∀ l : List α, l.find? p = (l.filter p).head? := by
  intro l
  induction l with
  | nil => rfl
  | cons a l ih =>
      rw [List.find?_cons, List.filter_cons]
      cases h : p a
      · simp only [h]
        exact ih
      · simp [h]

/-- A matched file whose table lacks a required column leaves the loop
state untouched and prints nothing. -/
theorem envLoop_skip {pt fname d t} (hr : read_csv d = .ok t)
    (hmiss : hasRequired t = false) :
    ∀ l c, envLoop pt fname d l c = (c, []) := by
  intro l
  induction l with
  | nil => intro c; rfl
  | cons sm rest ih =>
      intro c
      by_cases hg : strIn sm.2.file_keyword fname
      · simp [envLoop, hg, envStepSchool, hr, hmiss, ih]
      · simp [envLoop, hg, ih]

/-- A file undecodable in both encodings leaves the core untouched and
prints one error line per matched school. -/
theorem envLoop_fail {pt fname d} (hf : roIsOk (read_csv d) = false) :
    ∀ l c, envLoop pt fname d l c =
      (c, (l.filter (fun sm => strIn sm.2.file_keyword fname)).map
            (fun _ => "Error reading " ++ fname ++ ": " ++ roMsg (read_csv d))) := by
  intro l
  induction l with
  | nil => intro c; rfl
  | cons sm rest ih =>
      intro c
      by_cases hg : strIn sm.2.file_keyword fname
      · cases hrc : read_csv d with
        | ok t => rw [hrc] at hf; simp [roIsOk] at hf
        | decodeErr => simp [envLoop, hg, envStepSchool, hrc, ih, List.filter_cons]
        | otherErr m => simp [envLoop, hg, envStepSchool, hrc, ih, List.filter_cons]
      · simp [envLoop, hg, ih, List.filter_cons]

/-- A successfully read file with the required columns appends one
tagged table per matched school, in table order, and counts each. -/
theorem envLoop_ok {pt fname d t} (hr : read_csv d = .ok t)
    (hreq : hasRequired t = true) :
    ∀ l c, envLoop pt fname d l c =
      ({ c with
          env_dfs := c.env_dfs ++
            (l.filter (fun sm => strIn sm.2.file_keyword fname)).map
              (fun sm => envTableFor pt sm.1 sm.2.ec_target t),
          found_env_files := c.found_env_files +
            (l.filter (fun sm => strIn sm.2.file_keyword fname)).length }, []) := by
  intro l
  induction l with
  | nil => intro c; cases c; simp [envLoop]
  | cons sm rest ih =>
      intro c
      by_cases hg : strIn sm.2.file_keyword fname
      · cases c
        simp [envLoop, hg, envStepSchool, hr, hreq, ih, List.filter_cons]
        omega
      · simp [envLoop, hg, ih, List.filter_cons]

/-- Processing an environment csv never aborts: it runs the school
loop. -/
theorem step_env {nfc pt e c} (he : isEnvFile nfc e = true) :
    step nfc pt e c =
      .ok (envLoop pt (normalize_str nfc e.ename) e.csvData SCHOOL_META c) := by
  simp [step, he]

/-- Entries that are neither environment csvs nor growth spreadsheets
are ignored. -/
theorem step_other {nfc pt e c} (h1 : isEnvFile nfc e = false)
    (h2 : isGrowthFile nfc e = false) : step nfc pt e c = .ok (c, []) := by
  simp [step, h1, h2]

/-- The entry loop splits over list append. -/
theorem pe_append {nfc pt} :
    ∀ (l₁ l₂ : List Entry) (c : Core),
      processEntries nfc pt (l₁ ++ l₂) c =
        seqPE (processEntries nfc pt l₁ c) (processEntries nfc pt l₂) := by
  intro l₁
  induction l₁ with
  | nil =>
      intro l₂ c
      simp only [List.nil_append, processEntries, seqPE]
      cases processEntries nfc pt l₂ c <;> simp
  | cons e rest ih =>
      intro l₂ c
      rw [List.cons_append]
      cases hs : step nfc pt e c with
      | error m => simp [processEntries, hs, seqPE]
      | ok p =>
          simp only [processEntries, hs]
          rw [ih]
          cases hr : processEntries nfc pt rest p.1 with
          | error m => simp [seqPE]
          | ok q =>
              cases hq : processEntries nfc pt l₂ q.1 with
              | error m => simp [seqPE, hq]
              | ok w => simp [seqPE, hq, List.append_assoc]

/-- The only aborting step is a growth spreadsheet whose exception is
wrapped into the excel error message. -/
theorem step_error_shape {nfc pt e c m} (h : step nfc pt e c = .error m) :
    ∃ x, m = excelErrMsg x := by
  cases h1 : isEnvFile nfc e with
  | true => rw [step_env h1] at h; exact absurd h (by simp)
  | false =>
      cases h2 : isGrowthFile nfc e with
      | false => rw [step_other h1 h2] at h; exact absurd h (by simp)
      | true =>
          simp only [step, h1, h2] at h
          cases hg : growthStep nfc e.xlsxData { c with found_growth_file := true } with
          | error x =>
              rw [hg] at h
              simp at h
              exact ⟨x, h.symm⟩
          | ok c₂ => rw [hg] at h; simp at h

/-- Every terminal error of the entry loop is a wrapped excel error. -/
theorem pe_error_shape {nfc pt} :
    ∀ {l : List Entry} {c m}, processEntries nfc pt l c = .error m →
      ∃ x, m = excelErrMsg x := by
  intro l
  induction l with
  | nil => intro c m h; simp [processEntries] at h
  | cons e rest ih =>
      intro c m h
      simp only [processEntries] at h
      cases hs : step nfc pt e c with
      | error m₂ =>
          rw [hs] at h
          simp at h
          exact h ▸ step_error_shape hs
      | ok p =>
          rw [hs] at h
          have h2 : (match processEntries nfc pt rest p.1 with
                     | Except.error m => Except.error m
                     | Except.ok q => Except.ok (q.1, p.2 ++ q.2)) =
                      Except.error m := h
          cases hr : processEntries nfc pt rest p.1 with
          | error m₂ =>
              rw [hr] at h2
              simp at h2
              exact h2 ▸ ih hr
          | ok q => rw [hr] at h2; simp at h2

/-- A file matching no school keyword leaves the loop state untouched
and prints nothing. -/
theorem envLoop_nomatch {pt fname d} :
    ∀ l c, (∀ sm ∈ l, strIn sm.2.file_keyword fname = false) →
      envLoop pt fname d l c = (c, []) := by
  intro l
  induction l with
  | nil => intro c _; rfl
  | cons sm rest ih =>
      intro c hl
      have hg : strIn sm.2.file_keyword fname = false :=
        hl sm (List.mem_cons_self sm rest)
      simp [envLoop, hg, ih c (fun x hx => hl x (List.mem_cons_of_mem _ hx))]

/-- A no-op entry can be dropped from the loop. -/
theorem pe_cons_noop {nfc pt f} (hf : ∀ c, step nfc pt f c = .ok (c, [])) :
    ∀ suf c, processEntries nfc pt (f :: suf) c = processEntries nfc pt suf c := by
  intro suf c
  simp only [processEntries, hf c]
  cases processEntries nfc pt suf c <;> simp

/-- A no-op entry can be dropped anywhere in the directory listing. -/
theorem pe_insert_noop {nfc pt f} (hf : ∀ c, step nfc pt f c = .ok (c, [])) :
    ∀ pre suf c, processEntries nfc pt (pre ++ f :: suf) c =
      processEntries nfc pt (pre ++ suf) c := by
  intro pre suf c
  rw [pe_append, pe_append]
  have hk : processEntries nfc pt (f :: suf) = processEntries nfc pt suf :=
    funext (fun c₂ => pe_cons_noop hf suf c₂)
  rw [hk]

/-- Equal loop runs give equal loads. -/
theorem load_congr {nfc pt l₁ l₂}
    (h : processEntries nfc pt l₁ initCore = processEntries nfc pt l₂ initCore) :
    load_data nfc pt (some l₁) = load_data nfc pt (some l₂) := by
  simp [load_data, h]

/-- seqPE respects agreement up to logs in its continuation. -/
theorem seqPE_coreEq {r k₁ k₂} (hk : ∀ c, coreEq (k₁ c) (k₂ c)) :
    coreEq (seqPE r k₁) (seqPE r k₂) := by
  cases r with
  | error m => simp [seqPE, coreEq]
  | ok p =>
      have hp := hk p.1
      cases h₁ : k₁ p.1 with
      | error m₁ =>
          cases h₂ : k₂ p.1 with
          | error m₂ =>
              rw [h₁, h₂] at hp
              simp [coreEq] at hp
              simp [seqPE, h₁, h₂, coreEq, hp]
          | ok q₂ => rw [h₁, h₂] at hp; simp [coreEq] at hp
      | ok q₁ =>
          cases h₂ : k₂ p.1 with
          | error m₂ => rw [h₁, h₂] at hp; simp [coreEq] at hp
          | ok q₂ =>
              rw [h₁, h₂] at hp
              simp [coreEq] at hp
              simp [seqPE, h₁, h₂, coreEq, hp]

/-- Loop runs that agree up to logs give loads with the same tables and
the same terminal error. -/
theorem load_coreEq {nfc pt l₁ l₂}
    (h : coreEq (processEntries nfc pt l₁ initCore)
                (processEntries nfc pt l₂ initCore)) :
    (load_data nfc pt (some l₁)).env = (load_data nfc pt (some l₂)).env ∧
    (load_data nfc pt (some l₁)).growth = (load_data nfc pt (some l₂)).growth ∧
    (load_data nfc pt (some l₁)).err = (load_data nfc pt (some l₂)).err := by
  cases h₁ : processEntries nfc pt l₁ initCore with
  | error m₁ =>
      cases h₂ : processEntries nfc pt l₂ initCore with
      | error m₂ =>
          rw [h₁, h₂] at h
          simp [coreEq] at h
          simp [load_data, h₁, h₂, h]
      | ok q => rw [h₁, h₂] at h; simp [coreEq] at h
  | ok p₁ =>
      cases h₂ : processEntries nfc pt l₂ initCore with
      | error m₂ => rw [h₁, h₂] at h; simp [coreEq] at h
      | ok p₂ =>
          rw [h₁, h₂] at h
          obtain ⟨c₁, lg₁⟩ := p₁
          obtain ⟨c₂, lg₂⟩ := p₂
          simp [coreEq] at h
          subst h
          by_cases hA : c₁.env_dfs.isEmpty <;>
            by_cases hB : c₁.growth_dfs.isEmpty <;>
              simp [load_data, h₁, h₂, hA, hB]

/-- Every (name, meta) pair of the reference table yields a reference
(school, target EC) pair. -/
theorem metaPairs_mem : ∀ sm ∈ SCHOOL_META, pairOk sm.1 sm.2.ec_target := by
  intro sm hm
  exact List.mem_map_of_mem _ hm

/-- Rows produced from one csv table carry exactly the school and
target EC they were tagged with. -/
theorem envTableFor_tags {pt s q t r} (h : r ∈ envTableFor pt s q t) :
    EnvRow.school r = s ∧ EnvRow.target_ec r = q := by
  simp [envTableFor] at h
  obtain ⟨a, -, rfl⟩ := h
  exact ⟨rfl, rfl⟩

/-- Rows produced from one growth sheet carry exactly the school and
target EC they were tagged with. -/
theorem growthTableFor_tags {s q t r} (h : r ∈ growthTableFor s q t) :
    GrowthRow.school r = s ∧ GrowthRow.target_ec r = q := by
  simp [growthTableFor] at h
  obtain ⟨a, -, rfl⟩ := h
  exact ⟨rfl, rfl⟩

/-- Appending one fully tagged environment table preserves the tagging
invariant. -/
theorem tagged_append_env {c : Core} (hc : CoreTagged c) {tb}
    (htb : ∀ r ∈ tb, pairOk (EnvRow.school r) (EnvRow.target_ec r)) (n : Nat) :
    CoreTagged { c with env_dfs := c.env_dfs ++ [tb], found_env_files := n } := by
  constructor
  · intro tb₂ h r hr
    rcases List.mem_append.mp h with h | h
    · exact hc.1 tb₂ h r hr
    · rw [List.mem_singleton] at h
      subst h
      exact htb r hr
  · exact hc.2

/-- Appending one fully tagged growth table preserves the tagging
invariant. -/
theorem tagged_append_growth {c : Core} (hc : CoreTagged c) {tb}
    (htb : ∀ r ∈ tb, pairOk (GrowthRow.school r) (GrowthRow.target_ec r)) :
    CoreTagged { c with growth_dfs := c.growth_dfs ++ [tb] } := by
  constructor
  · exact hc.1
  · intro tb₂ h r hr
    rcases List.mem_append.mp h with h | h
    · exact hc.2 tb₂ h r hr
    · rw [List.mem_singleton] at h
      subst h
      exact htb r hr

/-- One school iteration preserves the tagging invariant. -/
theorem envStepSchool_tagged {pt fname d s q c} (hpair : pairOk s q)
    (hc : CoreTagged c) : CoreTagged (envStepSchool pt fname d s q c).1 := by
  cases hrc : read_csv d with
  | ok t =>
      cases hq : hasRequired t with
      | true =>
          simp only [envStepSchool, hrc, hq, if_true]
          exact tagged_append_env hc
            (fun r hr => by
              obtain ⟨h1, h2⟩ := envTableFor_tags hr
              rw [h1, h2]
              exact hpair) _
      | false => simpa [envStepSchool, hrc, hq] using hc
  | decodeErr => simpa [envStepSchool, hrc] using hc
  | otherErr m => simpa [envStepSchool, hrc] using hc

/-- The whole school loop preserves the tagging invariant. -/
theorem envLoop_tagged {pt fname d} :
    ∀ l c, (∀ sm ∈ l, pairOk sm.1 sm.2.ec_target) → CoreTagged c →
      CoreTagged (envLoop pt fname d l c).1 := by
  intro l
  induction l with
  | nil => intro c _ hc; simpa [envLoop] using hc
  | cons sm rest ih =>
      intro c hl hc
      by_cases hg : strIn sm.2.file_keyword fname
      · have h1 : CoreTagged (envStepSchool pt fname d sm.1 sm.2.ec_target c).1 :=
          envStepSchool_tagged (hl sm (List.mem_cons_self sm rest)) hc
        have h2 := ih (envStepSchool pt fname d sm.1 sm.2.ec_target c).1
          (fun x hx => hl x (List.mem_cons_of_mem _ hx)) h1
        simpa [envLoop, hg] using h2
      · have h2 := ih c (fun x hx => hl x (List.mem_cons_of_mem _ hx)) hc
        simpa [envLoop, hg] using h2

/-- The sheet loop preserves the tagging invariant. -/
theorem growthSheets_tagged {nfc} :
    ∀ {shs : List SheetData} {c c₂}, CoreTagged c →
      growthSheets nfc shs c = .ok c₂ → CoreTagged c₂ := by
  intro shs
  induction shs with
  | nil =>
      intro c c₂ hc h
      simp [growthSheets] at h
      exact h ▸ hc
  | cons sh rest ih =>
      intro c c₂ hc h
      cases hm : sheetSchoolFor (normalize_str nfc sh.sname) with
      | none =>
          simp only [growthSheets, hm] at h
          exact ih hc h
      | some sm =>
          cases hcont : sh.content with
          | err m => simp [growthSheets, hm, hcont] at h
          | ok t =>
              simp only [growthSheets, hm, hcont] at h
              have hsm : sm ∈ SCHOOL_META := List.mem_of_find?_eq_some hm
              refine ih ?_ h
              exact tagged_append_growth hc
                (fun r hr => by
                  obtain ⟨h1, h2⟩ := growthTableFor_tags hr
                  rw [h1, h2]
                  exact metaPairs_mem sm hsm)

/-- One entry of the directory loop preserves the tagging invariant. -/
theorem step_tagged {nfc pt e c p} (hc : CoreTagged c)
    (h : step nfc pt e c = .ok p) : CoreTagged p.1 := by
  cases he : isEnvFile nfc e with
  | true =>
      rw [step_env he] at h
      simp at h
      exact h ▸ envLoop_tagged SCHOOL_META c metaPairs_mem hc
  | false =>
      cases hg : isGrowthFile nfc e with
      | false =>
          rw [step_other he hg] at h
          simp at h
          exact h ▸ hc
      | true =>
          simp only [step, he, hg] at h
          cases hgs : growthStep nfc e.xlsxData { c with found_growth_file := true } with
          | error m => rw [hgs] at h; simp at h
          | ok c₂ =>
              rw [hgs] at h
              simp at h
              have hct : CoreTagged { c with found_growth_file := true } := hc
              cases ho : e.xlsxData.openErr with
              | some m => rw [growthStep, ho] at hgs; simp at hgs
              | none =>
                  rw [growthStep, ho] at hgs
                  exact h ▸ growthSheets_tagged hct hgs

/-- The directory loop preserves the tagging invariant. -/
theorem pe_tagged {nfc pt} :
    ∀ {l : List Entry} {c p}, CoreTagged c →
      processEntries nfc pt l c = .ok p → CoreTagged p.1 := by
  intro l
  induction l with
  | nil =>
      intro c p hc h
      simp [processEntries] at h
      exact h ▸ hc
  | cons e rest ih =>
      intro c p hc h
      simp only [processEntries] at h
      cases hs : step nfc pt e c with
      | error m => rw [hs] at h; simp at h
      | ok q =>
          rw [hs] at h
          have h2 : (match processEntries nfc pt rest q.1 with
                     | Except.error m => Except.error m
                     | Except.ok w => Except.ok (w.1, q.2 ++ w.2)) =
                      Except.ok p := h
          cases hr : processEntries nfc pt rest q.1 with
          | error m => rw [hr] at h2; simp at h2
          | ok w =>
              rw [hr] at h2
              simp at h2
              have hq := step_tagged hc hs
              have hw := ih hq hr
              rw [← h2]
              exact hw

/-- A non-spreadsheet entry never aborts, never touches the growth
collection or the growth flag, only extends the environment collection,
and extends it by something nonempty whenever it contributes. -/
theorem step_shape2 {nfc pt e c} (hg : isGrowthFile nfc e = false) :
    ∃ ts ms n, step nfc pt e c =
        .ok (⟨c.env_dfs ++ ts, c.growth_dfs, n, c.found_growth_file⟩, ms) ∧
      (contributesEnv nfc e = true → ts ≠ []) := by
  cases he : isEnvFile nfc e with
  | false =>
      refine ⟨[], [], c.found_env_files, ?_, ?_⟩
      · rw [step_other he hg]
        cases c
        simp
      · intro hc
        simp [contributesEnv, he] at hc
  | true =>
      cases hrc : read_csv e.csvData with
      | ok t =>
          cases hq : hasRequired t with
          | true =>
              refine ⟨(envSchoolsFor (normalize_str nfc e.ename)).map
                  (fun sm => envTableFor pt sm.1 sm.2.ec_target t), [],
                c.found_env_files +
                  (envSchoolsFor (normalize_str nfc e.ename)).length, ?_, ?_⟩
              · rw [step_env he, envLoop_ok hrc hq]
                cases c
                rfl
              · intro hc
                have hne : (envSchoolsFor (normalize_str nfc e.ename)).isEmpty = false := by
                  simp only [contributesEnv, he, hrc, hq, Bool.true_and,
                    Bool.and_eq_true, Bool.not_eq_true'] at hc
                  exact hc
                intro hmap
                rw [List.map_eq_nil_iff] at hmap
                rw [hmap] at hne
                simp at hne
          | false =>
              refine ⟨[], [], c.found_env_files, ?_, ?_⟩
              · rw [step_env he, envLoop_skip hrc hq]
                cases c
                simp
              · intro hc
                simp [contributesEnv, he, hrc, hq] at hc
      | decodeErr =>
          refine ⟨[], (SCHOOL_META.filter
              (fun sm => strIn sm.2.file_keyword (normalize_str nfc e.ename))).map
                (fun _ => "Error reading " ++ normalize_str nfc e.ename ++ ": " ++
                  roMsg (read_csv e.csvData)),
            c.found_env_files, ?_, ?_⟩
          · rw [step_env he, envLoop_fail (by rw [hrc]; rfl)]
            cases c
            simp
          · intro hc
            simp [contributesEnv, he, hrc] at hc
      | otherErr msg =>
          refine ⟨[], (SCHOOL_META.filter
              (fun sm => strIn sm.2.file_keyword (normalize_str nfc e.ename))).map
                (fun _ => "Error reading " ++ normalize_str nfc e.ename ++ ": " ++
                  roMsg (read_csv e.csvData)),
            c.found_env_files, ?_, ?_⟩
          · rw [step_env he, envLoop_fail (by rw [hrc]; rfl)]
            cases c
            simp
          · intro hc
            simp [contributesEnv, he, hrc] at hc

/-- Over a listing without growth spreadsheets the loop never aborts,
leaves the growth collection as it was, only extends the environment
collection, and ends with a nonempty environment collection whenever it
started nonempty or some entry contributes. -/
theorem pe_nogrowth {nfc pt} :
    ∀ {l : List Entry}, (∀ e ∈ l, isGrowthFile nfc e = false) →
      ∀ c, ∃ p, processEntries nfc pt l c = .ok p ∧
        p.1.growth_dfs = c.growth_dfs ∧
        (∃ ts, p.1.env_dfs = c.env_dfs ++ ts) ∧
        (((∃ e ∈ l, contributesEnv nfc e = true) ∨ c.env_dfs ≠ []) →
          p.1.env_dfs ≠ []) := by
  intro l
  induction l with
  | nil =>
      intro _ c
      refine ⟨(c, []), rfl, rfl, ⟨[], by simp⟩, ?_⟩
      rintro (⟨e, he, -⟩ | hne)
      · exact absurd he (List.not_mem_nil e)
      · exact hne
  | cons e rest ih =>
      intro hl c
      obtain ⟨ts₀, ms, n, hstep, himp⟩ :=
        @step_shape2 nfc pt e c (hl e (List.mem_cons_self e rest))
      obtain ⟨p, hpe, hgrow, ⟨ts₁, henv⟩, hlast⟩ :=
        ih (fun x hx => hl x (List.mem_cons_of_mem _ hx))
          ⟨c.env_dfs ++ ts₀, c.growth_dfs, n, c.found_growth_file⟩
      refine ⟨(p.1, ms ++ p.2), ?_, by simpa using hgrow, ?_, ?_⟩
      · simp only [processEntries, hstep]
        rw [hpe]
      · exact ⟨ts₀ ++ ts₁, by simpa [List.append_assoc] using henv⟩
      · rintro (⟨x, hx, hcx⟩ | hne)
        · rcases List.mem_cons.mp hx with rfl | hx₂
          · refine hlast (Or.inr ?_)
            have := himp hcx
            simp [this]
          · exact hlast (Or.inl ⟨x, hx₂, hcx⟩)
        · refine hlast (Or.inr ?_)
          simp [hne]

/-! Claim theorems. -/

/-- C9: load_data is deterministic: the embedding exposes every input
the source reads (the directory listing with per-file reader outcomes,
the normalizer and the timestamp parser), and on equal inputs two runs
return equal results, rows, order and tags included. -/
theorem c9_load_deterministic (nfc : String → String) (pt : String → Option Nat)
    (dir : Option (List Entry)) : load_data nfc pt dir = load_data nfc pt dir := rfl

/-- C5: school matching sees a name only through its NFC normalization:
two directory entries, and likewise two sheets, that differ only in a
name with the same normalization are processed identically, so both
resolve to the same school or both to none. -/
theorem c5_nfc_equiv_matching (nfc : String → String) (pt : String → Option Nat)
    (a b : String) (cd : CsvData) (xd : XlsxData) (c : Core)
    (ha : a ≠ "") (hb : b ≠ "") (h : nfc a = nfc b) :
    step nfc pt ⟨a, cd, xd⟩ c = step nfc pt ⟨b, cd, xd⟩ c ∧
    ∀ (sc : XlsxRead) (rest : List SheetData) (c₂ : Core),
      growthSheets nfc (⟨a, sc⟩ :: rest) c₂ = growthSheets nfc (⟨b, sc⟩ :: rest) c₂ := by
  have hn : normalize_str nfc a = normalize_str nfc b := by
    simp [normalize_str, ha, hb, h]
  constructor
  · simp only [step, isEnvFile, isGrowthFile]
    rw [hn]
  · intro sc rest c₂
    simp only [growthSheets]
    rw [hn]

/-- C5 witness: the theorem applied to a concrete normalizer and pair
of names. -/
theorem c5_nfc_equiv_matching_witness :
    ("x" : String) ≠ "" ∧ ("y" : String) ≠ "" ∧
    (fun _ : String => "하늘환경.csv") "x" = (fun _ : String => "하늘환경.csv") "y" ∧
    step (fun _ => "하늘환경.csv") pt0 ⟨"x", hjEnv.csvData, noX⟩ initCore =
      step (fun _ => "하늘환경.csv") pt0 ⟨"y", hjEnv.csvData, noX⟩ initCore :=
  ⟨by decide, by decide, rfl,
   (c5_nfc_equiv_matching (fun _ => "하늘환경.csv") pt0 "x" "y" hjEnv.csvData noX
      initCore (by decide) (by decide) rfl).1⟩

/-- C2: an environment file whose normalized, lowercased column set
lacks a required column is a no-op for the whole load: deleting it from
the listing changes nothing, so its rows never reach the unified table
and the load outcome is whatever the remaining files give. -/
theorem c2_missing_required_excluded (nfc : String → String) (pt : String → Option Nat)
    (pre suf : List Entry) (f : Entry) (t : RawTable)
    (he : isEnvFile nfc f = true)
    (hr : read_csv f.csvData = .ok t)
    (hm : hasRequired t = false) :
    load_data nfc pt (some (pre ++ f :: suf)) = load_data nfc pt (some (pre ++ suf)) := by
  apply load_congr
  apply pe_insert_noop
  intro c
  rw [step_env he, envLoop_skip hr hm]

/-- C2 witness: a file with columns time and temperature only is
dropped, and the load over the remaining valid environment file and
growth spreadsheet succeeds identically. -/
theorem c2_missing_required_excluded_witness :
    isEnvFile id badColsEnv = true ∧ read_csv badColsEnv.csvData = .ok badTable ∧
    hasRequired badTable = false ∧
    load_data id pt0 (some ([hjEnv] ++ badColsEnv :: [growthX])) =
      load_data id pt0 (some ([hjEnv] ++ [growthX])) :=
  ⟨by decide, rfl, by decide,
   c2_missing_required_excluded id pt0 [hjEnv] [growthX] badColsEnv badTable
     (by decide) rfl (by decide)⟩

/-- C6: decoding tries utf-8 first and its table wins when it succeeds;
a UnicodeDecodeError falls back to cp949, whose table is then used; when
both decodes fail the entry is skipped with the core unchanged, the
failure printed, and the loop free to continue. -/
theorem c6_encoding_cascade :
    (∀ (d : CsvData) (t : RawTable), d.utf8 = .ok t → read_csv d = .ok t) ∧
    (∀ (d : CsvData) (t : RawTable), d.utf8 = .decodeErr → d.cp949 = .ok t →
      read_csv d = .ok t) ∧
    (∀ (nfc : String → String) (pt : String → Option Nat) (e : Entry) (c : Core)
        (sm : String × SchoolMeta),
      isEnvFile nfc e = true →
      e.csvData.utf8 = .decodeErr → e.csvData.cp949 = .decodeErr →
      envSchoolsFor (normalize_str nfc e.ename) = [sm] →
      step nfc pt e c =
        .ok (c, ["Error reading " ++ normalize_str nfc e.ename ++ ": " ++
          "UnicodeDecodeError"])) := by
  refine ⟨?_, ?_, ?_⟩
  · intro d t h
    simp [read_csv, h]
  · intro d t h1 h2
    simp [read_csv, h1, h2]
  · intro nfc pt e c sm he h1 h2 hm
    have hro : read_csv e.csvData = .decodeErr := by simp [read_csv, h1, h2]
    rw [step_env he, envLoop_fail (by rw [hro]; rfl)]
    have hm2 : SCHOOL_META.filter
        (fun x => strIn x.2.file_keyword (normalize_str nfc e.ename)) = [sm] := hm
    rw [hm2, hro]
    rfl

/-- C6 witness: the three cascade branches at concrete files; the
third shows a file undecodable in both encodings being skipped with one
printed error line. -/
theorem c6_encoding_cascade_witness :
    read_csv ⟨.ok hjTable, .decodeErr⟩ = .ok hjTable ∧
    read_csv ⟨.decodeErr, .ok hjTable⟩ = .ok hjTable ∧
    step id pt0 failEnv initCore =
      .ok (initCore, ["Error reading " ++ normalize_str id failEnv.ename ++ ": " ++
        "UnicodeDecodeError"]) :=
  ⟨c6_encoding_cascade.1 ⟨.ok hjTable, .decodeErr⟩ hjTable rfl,
   c6_encoding_cascade.2.1 ⟨.decodeErr, .ok hjTable⟩ hjTable rfl rfl,
   c6_encoding_cascade.2.2 id pt0 failEnv initCore
     ("아라고", ⟨4, "#ff7f0e", "아라"⟩) (by decide) rfl rfl (by decide)⟩

/-- C1 counterexample: a directory whose valid environment file and
valid one-sheet growth spreadsheet load cleanly (second conjunct), plus
one growth spreadsheet whose open raises: the whole load aborts with
the wrapped excel error (first conjunct), although the directory
exists, one environment file parsed and one growth sheet parsed.  The
claim that a growth-spreadsheet exception does not abort the load is
therefore false on the code (lines 129-130 return a terminal error). -/
theorem c1_cex :
    load_data id pt0 (some [hjEnv, growthX, badX]) =
      ⟨none, none, some (excelErrMsg "boom"), []⟩ ∧
    (load_data id pt0 (some [hjEnv, growthX])).err = none :=
  ⟨rfl, rfl⟩

/-- C1 amended: the terminal errors of load_data are exactly the
missing directory, the empty environment collection, the empty growth
collection, and additionally a wrapped exception from opening or
reading a growth spreadsheet; environment csv processing never aborts
the loop. -/
theorem c1_amended_error_taxonomy :
    (∀ (nfc : String → String) (pt : String → Option Nat) (dir : Option (List Entry)),
      (load_data nfc pt dir).err = none ∨
      (load_data nfc pt dir).err = some dirErrMsg ∨
      (load_data nfc pt dir).err = some noEnvMsg ∨
      (load_data nfc pt dir).err = some noGrowthMsg ∨
      ∃ x, (load_data nfc pt dir).err = some (excelErrMsg x)) ∧
    (∀ (nfc : String → String) (pt : String → Option Nat) (e : Entry) (c : Core),
      isEnvFile nfc e = true → ∃ p, step nfc pt e c = .ok p) := by
  constructor
  · intro nfc pt dir
    cases dir with
    | none => right; left; rfl
    | some l =>
        cases hpe : processEntries nfc pt l initCore with
        | error m =>
            obtain ⟨x, rfl⟩ := pe_error_shape hpe
            right; right; right; right
            exact ⟨x, by simp [load_data, hpe]⟩
        | ok p =>
            by_cases hA : p.1.env_dfs.isEmpty
            · right; right; left
              simp [load_data, hpe, hA]
            · by_cases hB : p.1.growth_dfs.isEmpty
              · right; right; right; left
                simp [load_data, hpe, hA, hB]
              · left
                simp [load_data, hpe, hA, hB]
  · intro nfc pt e c he
    exact ⟨_, step_env he⟩

/-- C1 amended witness: the never-aborting branch applied to a concrete
environment file. -/
theorem c1_amended_error_taxonomy_witness :
    isEnvFile id hjEnv = true ∧ ∃ p, step id pt0 hjEnv initCore = .ok p :=
  ⟨by decide, c1_amended_error_taxonomy.2 id pt0 hjEnv initCore (by decide)⟩

/-- C4 counterexample: adding a file that is silently skipped (its
column set lacks required columns) to a clean directory leaves the
entire returned value, console log included, unchanged, so the caller
cannot distinguish a clean load from a load that skipped an input; no
count or skip list is returned (found_env_files is a local that
load_data never returns). -/
theorem c4_cex :
    load_data id pt0 (some [hjEnv, badColsEnv, growthX]) =
      load_data id pt0 (some [hjEnv, growthX]) ∧
    (load_data id pt0 (some [hjEnv, growthX])).err = none :=
  ⟨rfl, rfl⟩

/-- C4 amended: skipped inputs are not surfaced to the caller: an
environment file matching no school keyword vanishes without any trace
at all, and a file failing both decodes changes only the printed
console log, never the returned tables or error, so a clean load and a
load with skipped inputs can return equal results. -/
theorem c4_amended_no_diagnostics :
    (∀ (nfc : String → String) (pt : String → Option Nat) (pre suf : List Entry)
        (f : Entry), isEnvFile nfc f = true →
      envSchoolsFor (normalize_str nfc f.ename) = [] →
      load_data nfc pt (some (pre ++ f :: suf)) =
        load_data nfc pt (some (pre ++ suf))) ∧
    (∀ (nfc : String → String) (pt : String → Option Nat) (pre suf : List Entry)
        (f : Entry), isEnvFile nfc f = true →
      roIsOk (read_csv f.csvData) = false →
      (load_data nfc pt (some (pre ++ f :: suf))).env =
        (load_data nfc pt (some (pre ++ suf))).env ∧
      (load_data nfc pt (some (pre ++ f :: suf))).growth =
        (load_data nfc pt (some (pre ++ suf))).growth ∧
      (load_data nfc pt (some (pre ++ f :: suf))).err =
        (load_data nfc pt (some (pre ++ suf))).err) := by
  constructor
  · intro nfc pt pre suf f he hm
    apply load_congr
    apply pe_insert_noop
    intro c
    rw [step_env he, envLoop_nomatch SCHOOL_META c]
    intro sm hsm
    have := List.filter_eq_nil_iff.mp hm sm hsm
    simpa using this
  · intro nfc pt pre suf f he hro
    apply load_coreEq
    rw [pe_append, pe_append]
    apply seqPE_coreEq
    intro c
    have hms : step nfc pt f c =
        .ok (c, (SCHOOL_META.filter
          (fun sm => strIn sm.2.file_keyword (normalize_str nfc f.ename))).map
            (fun _ => "Error reading " ++ normalize_str nfc f.ename ++ ": " ++
              roMsg (read_csv f.csvData))) := by
      rw [step_env he, envLoop_fail hro]
    simp only [processEntries, hms]
    cases hr : processEntries nfc pt suf c with
    | error m => simp [coreEq, hr]
    | ok q => simp [coreEq, hr]

/-- C4 amended witness: the untraceable-skip branch applied to a file
matching no school keyword. -/
theorem c4_amended_no_diagnostics_witness :
    isEnvFile id noMatchEnv = true ∧
    envSchoolsFor (normalize_str id noMatchEnv.ename) = [] ∧
    load_data id pt0 (some ([] ++ noMatchEnv :: [hjEnv, growthX])) =
      load_data id pt0 (some ([] ++ [hjEnv, growthX])) :=
  ⟨by decide, by decide,
   c4_amended_no_diagnostics.1 id pt0 [] [hjEnv, growthX] noMatchEnv
     (by decide) (by decide)⟩

/-- C7 counterexample: one environment file whose name carries the
keywords of two schools is ingested once per keyword, so its rows enter
the unified table twice, tagged 송도고 and 하늘고: the env loop of
lines 78-79 has no break, unlike the sheet loop. -/
theorem c7_cex :
    (load_data id pt0 (some [multiEnv, growthX])).env =
      some [⟨some 7, "송도고", 1, ["t1", "20", "50", "6", "2"]⟩,
            ⟨some 7, "하늘고", 2, ["t1", "20", "50", "6", "2"]⟩] :=
  rfl

/-- C7 amended: sheet matching is first-match-wins (it equals the head
of the list of all matches), but environment filename matching assigns
every matching school: an accepted file appends one tagged table per
keyword occurring in its normalized name, in reference-table order. -/
theorem c7_amended_matching_semantics :
    (∀ s : String, sheetSchoolFor s = (envSchoolsFor s).head?) ∧
    (∀ (nfc : String → String) (pt : String → Option Nat) (e : Entry) (c : Core)
        (t : RawTable), isEnvFile nfc e = true → read_csv e.csvData = .ok t →
      hasRequired t = true →
      step nfc pt e c = .ok ({ c with
        env_dfs := c.env_dfs ++ (envSchoolsFor (normalize_str nfc e.ename)).map
          (fun sm => envTableFor pt sm.1 sm.2.ec_target t),
        found_env_files := c.found_env_files +
          (envSchoolsFor (normalize_str nfc e.ename)).length }, [])) := by
  constructor
  · intro s
    exact find_eq_head_filter _ SCHOOL_META
  · intro nfc pt e c t he hr hq
    rw [step_env he, envLoop_ok hr hq]
    rfl

/-- C7 amended witness: the two-keyword file appends two tagged
tables. -/
theorem c7_amended_matching_semantics_witness :
    isEnvFile id multiEnv = true ∧ read_csv multiEnv.csvData = .ok hjTable ∧
    hasRequired hjTable = true ∧
    step id pt0 multiEnv initCore = .ok ({ initCore with
      env_dfs := initCore.env_dfs ++
        (envSchoolsFor (normalize_str id multiEnv.ename)).map
          (fun sm => envTableFor pt0 sm.1 sm.2.ec_target hjTable),
      found_env_files := initCore.found_env_files +
        (envSchoolsFor (normalize_str id multiEnv.ename)).length }, []) :=
  ⟨by decide, rfl, by decide,
   c7_amended_matching_semantics.2 id pt0 multiEnv initCore hjTable
     (by decide) rfl (by decide)⟩

/-- C8 counterexample: an existing directory with no growth spreadsheet
and zero valid environment files fails with the no-environment-data
error, not the no-growth-data error, because the check of line 133
precedes the check of line 135; so the claimed behaviour does not hold
regardless of the number of valid environment files. -/
theorem c8_cex :
    load_data id pt0 (some ([] : List Entry)) = ⟨none, none, some noEnvMsg, []⟩ ∧
    noEnvMsg ≠ noGrowthMsg :=
  ⟨rfl, by decide⟩

/-- C8 amended: over an existing directory with no growth-keyword
spreadsheet, load fails with the no-growth-data error provided at least
one environment file parses successfully; with zero such files the
no-environment-data error takes precedence. -/
theorem c8_amended_nogrowth (nfc : String → String) (pt : String → Option Nat)
    (entries : List Entry)
    (hg : ∀ e ∈ entries, isGrowthFile nfc e = false)
    (hc : ∃ e ∈ entries, contributesEnv nfc e = true) :
    (load_data nfc pt (some entries)).err = some noGrowthMsg := by
  obtain ⟨p, hpe, hgrow, -, hne⟩ := @pe_nogrowth nfc pt entries hg initCore
  have henv : p.1.env_dfs ≠ [] := hne (Or.inl hc)
  have hgrow2 : p.1.growth_dfs = [] := by rw [hgrow]; rfl
  simp [load_data, hpe, henv, hgrow2]

/-- C8 amended witness: one valid environment file and no growth
spreadsheet yield the no-growth-data error. -/
theorem c8_amended_nogrowth_witness :
    (∀ e ∈ [hjEnv], isGrowthFile id e = false) ∧
    (∃ e ∈ [hjEnv], contributesEnv id e = true) ∧
    (load_data id pt0 (some [hjEnv])).err = some noGrowthMsg :=
  ⟨by decide, ⟨hjEnv, by decide, by decide⟩,
   c8_amended_nogrowth id pt0 [hjEnv] (by decide) ⟨hjEnv, by decide, by decide⟩⟩

/-- C3: an accepted environment file matching one school appends
exactly one table holding one output row per source row (none dropped),
where a time cell the parser rejects becomes an explicit none marker in
its row; in particular a file with ten parseable rows and one
unparseable row contributes exactly eleven rows. -/
theorem c3_rows_preserved (nfc : String → String) (pt : String → Option Nat)
    (e : Entry) (t : RawTable) (sm : String × SchoolMeta) (c : Core)
    (he : isEnvFile nfc e = true) (hr : read_csv e.csvData = .ok t)
    (hq : hasRequired t = true)
    (hm : envSchoolsFor (normalize_str nfc e.ename) = [sm]) :
    step nfc pt e c = .ok ({ c with
        env_dfs := c.env_dfs ++ [envTableFor pt sm.1 sm.2.ec_target t],
        found_env_files := c.found_env_files + 1 }, []) ∧
    (envTableFor pt sm.1 sm.2.ec_target t).length = t.rows.length ∧
    (∀ r ∈ t.rows, pt (r.getD (timeIdx t) "") = none →
      (⟨none, sm.1, sm.2.ec_target, r⟩ : EnvRow) ∈
        envTableFor pt sm.1 sm.2.ec_target t) := by
  refine ⟨?_, ?_, ?_⟩
  · rw [step_env he, envLoop_ok hr hq]
    have hm2 : SCHOOL_META.filter
        (fun x => strIn x.2.file_keyword (normalize_str nfc e.ename)) = [sm] := hm
    rw [hm2]
    rfl
  · simp [envTableFor]
  · intro r hrr hnone
    have hmem : (⟨pt (r.getD (timeIdx t) ""), sm.1, sm.2.ec_target, r⟩ : EnvRow) ∈
        envTableFor pt sm.1 sm.2.ec_target t := List.mem_map_of_mem _ hrr
    rwa [hnone] at hmem

/-- C3 witness: the eleven-row file of school 아라고: the step appends
its table, the table has eleven rows (ten parsed, one none marker), and
the marker row is present. -/
theorem c3_rows_preserved_witness :
    (isEnvFile id e11 = true ∧ hasRequired t11 = true ∧
      envSchoolsFor (normalize_str id e11.ename) =
        [("아라고", ⟨4, "#ff7f0e", "아라"⟩)]) ∧
    (envTableFor pt0 "아라고" (4 : Rat) t11).length = t11.rows.length ∧
    t11.rows.length = 11 ∧
    (⟨none, "아라고", (4 : Rat), ["bad", "20", "50", "6", "2"]⟩ : EnvRow) ∈
      envTableFor pt0 "아라고" (4 : Rat) t11 :=
  ⟨⟨by decide, by decide, by decide⟩,
   (c3_rows_preserved id pt0 e11 t11 ("아라고", ⟨4, "#ff7f0e", "아라"⟩) initCore
      (by decide) rfl (by decide) (by decide)).2.1,
   by decide,
   (c3_rows_preserved id pt0 e11 t11 ("아라고", ⟨4, "#ff7f0e", "아라"⟩) initCore
      (by decide) rfl (by decide) (by decide)).2.2
     ["bad", "20", "50", "6", "2"] (by decide) (by decide)⟩

/-- C10: on every successful load, each row of both returned tables
carries a school name and target EC forming one of the four reference
pairs (송도고 1, 하늘고 2, 아라고 4, 동산고 8). -/
theorem c10_rows_tagged (nfc : String → String) (pt : String → Option Nat)
    (dir : Option (List Entry)) (E : List EnvRow) (G : List GrowthRow)
    (er : Option String) (lg : List String)
    (h : load_data nfc pt dir = ⟨some E, some G, er, lg⟩) :
    (∀ r ∈ E, (EnvRow.school r, EnvRow.target_ec r) ∈ metaPairs) ∧
    (∀ r ∈ G, (GrowthRow.school r, GrowthRow.target_ec r) ∈ metaPairs) := by
  cases dir with
  | none => simp [load_data] at h
  | some l =>
      cases hpe : processEntries nfc pt l initCore with
      | error m => simp [load_data, hpe] at h
      | ok p =>
          have hinit : CoreTagged initCore :=
            ⟨fun tb htb => (List.not_mem_nil tb htb).elim,
             fun tb htb => (List.not_mem_nil tb htb).elim⟩
          have htag := pe_tagged hinit hpe
          by_cases hA : p.1.env_dfs.isEmpty
          · simp [load_data, hpe, hA] at h
          · by_cases hB : p.1.growth_dfs.isEmpty
            · simp [load_data, hpe, hA, hB] at h
            · simp only [load_data, hpe, hA, hB, if_false, Bool.false_eq_true,
                LoadOutput.mk.injEq, Option.some.injEq] at h
              obtain ⟨hE, hG, -, -⟩ := h
              constructor
              · intro r hr
                rw [← hE] at hr
                obtain ⟨tb, htb, hrtb⟩ := List.mem_flatten.mp hr
                exact htag.1 tb htb r hrtb
              · intro r hr
                rw [← hG] at hr
                obtain ⟨tb, htb, hrtb⟩ := List.mem_flatten.mp hr
                exact htag.2 tb htb r hrtb

/-- C10 witness: the theorem applied to a concrete successful load. -/
theorem c10_rows_tagged_witness :
    load_data id pt0 (some [hjEnv, growthX]) = ⟨some E0, some G0, none, []⟩ ∧
    (∀ r ∈ E0, (EnvRow.school r, EnvRow.target_ec r) ∈ metaPairs) ∧
    (∀ r ∈ G0, (GrowthRow.school r, GrowthRow.target_ec r) ∈ metaPairs) :=
  ⟨rfl,
   (c10_rows_tagged id pt0 (some [hjEnv, growthX]) E0 G0 none [] rfl).1,
   (c10_rows_tagged id pt0 (some [hjEnv, growthX]) E0 G0 none [] rfl).2⟩

end Polar
